import Mathlib

/-!
Verification of the abuse-mitigation core of the Amirya Mall client scripts
(`js/main.js`, `js/security-enhanced.js`).

Strings from the page are modelled as `List Char`; timestamps (`Date.now()`
values, milliseconds) as `Int`; the per-key `Map`s of the rate limiter as
functions `String → Option _`.  Browser/platform primitives (DOM, WebCrypto,
`btoa`/`atob`, `fetch`) are not part of the repository: they are abstracted
by their interface contracts where a claim needs them.
-/

/-! ### Generic character-list helpers (JS string primitives) -/

/-- The ASCII whitespace characters matched by the JS `\s` class and by
`String.prototype.trim` (the model restricts `\s` to its ASCII part). -/
def isJsSpace (c : Char) : Bool :=
  c = ' ' || c = '\t' || c = '\n' || c = '\r' || c = Char.ofNat 11 || c = Char.ofNat 12

/-- The JS `\w` class: `[A-Za-z0-9_]`. -/
def isWordChar (c : Char) : Bool :=
  ('a' ≤ c && c ≤ 'z') || ('A' ≤ c && c ≤ 'Z') || ('0' ≤ c && c ≤ '9') || c = '_'

/-- JS `String.prototype.trim`: drop whitespace from both ends. -/
def jsTrim (l : List Char) : List Char :=
  ((l.dropWhile isJsSpace).reverse.dropWhile isJsSpace).reverse

/-- Boolean test that `p` is a prefix of `l` (JS `startsWith`). -/
def seqPrefixOf : List Char → List Char → Bool
  | [], _ => true
  | _ :: _, [] => false
  | a :: p, b :: l => a == b && seqPrefixOf p l

/-- Boolean substring containment (JS `String.prototype.includes`,
`RegExp.test` for a literal pattern). -/
def listContains (pat : List Char) : List Char → Bool
  | [] => pat.isEmpty
  | c :: rest => seqPrefixOf pat (c :: rest) || listContains pat rest

/-- JS `hay.includes(pat)` on `String`. -/
def strIncludes (hay pat : String) : Bool :=
  listContains pat.toList hay.toList

/-- Split a character list at a separator character (used to model the
anchored alternation structure of the validation regexes). -/
def splitOnChar (sep : Char) : List Char → List (List Char)
  | [] => [[]]
  | c :: rest =>
    let r := splitOnChar sep rest
    if c = sep then [] :: r
    else
      match r with
      | h :: t => (c :: h) :: t
      | [] => [[c]]

/-- Apply `f` to every character and concatenate the pieces.  Both the
HTML-entity encoding and the single-character `replace` calls of
`sanitize` are instances of this scheme. -/
def charwise (f : Char → List Char) : List Char → List Char
  | [] => []
  | c :: l => f c ++ charwise f l

theorem charwise_append (f : Char → List Char) (l₁ l₂ : List Char) :
    charwise f (l₁ ++ l₂) = charwise f l₁ ++ charwise f l₂ := by
  induction l₁ with
  | nil => rfl
  | cons c l ih => simp [charwise, ih]

theorem charwise_charwise (f g : Char → List Char) (l : List Char) :
    charwise f (charwise g l) = charwise (fun c => charwise f (g c)) l := by
  induction l with
  | nil => rfl
  | cons c l ih => simp [charwise, charwise_append, ih]

theorem mem_charwise {f : Char → List Char} {l : List Char} {a : Char}
    (h : a ∈ charwise f l) : ∃ c ∈ l, a ∈ f c := by
  induction l with
  | nil => simp [charwise] at h
  | cons c l ih =>
    simp only [charwise, List.mem_append] at h
    rcases h with h | h
    · exact ⟨c, by simp, h⟩
    · obtain ⟨d, hd, ha⟩ := ih h
      exact ⟨d, by simp [hd], ha⟩

theorem charwise_length_le (f : Char → List Char) (k : Nat)
    (hf : ∀ c, (f c).length ≤ k) (l : List Char) :
    (charwise f l).length ≤ k * l.length := by
  induction l with
  | nil => simp [charwise]
  | cons c l ih =>
    simp only [charwise, List.length_append, List.length_cons, Nat.mul_succ]
    have := hf c
    omega

/-- One left-to-right global-regex removal pass (JS
`str.replace(pattern, '')` with the `g` flag): scan the string once; at
each position, if the matcher reports a match of `n+1` characters, drop
them and resume after the match, otherwise keep the character.  `fuel`
bounds the recursion by the string length (each step consumes at least
one character, so the fuel never runs out when it starts at the length). -/
def removeAllFuel (try? : List Char → Option Nat) : Nat → List Char → List Char
  | 0, s => s
  | _ + 1, [] => []
  | fuel + 1, c :: rest =>
    match try? (c :: rest) with
    | some (n + 1) => removeAllFuel try? fuel (rest.drop n)
    | _ => c :: removeAllFuel try? fuel rest

/-- All (non-overlapping, leftmost) matches of a pattern removed. -/
def removeAll (try? : List Char → Option Nat) (s : List Char) : List Char :=
  removeAllFuel try? s.length s

theorem removeAllFuel_length_le (try? : List Char → Option Nat) :
    ∀ (fuel : Nat) (s : List Char), (removeAllFuel try? fuel s).length ≤ s.length := by
  intro fuel
  induction fuel with
  | zero => intro s; simp [removeAllFuel]
  | succ n ih =>
    intro s
    match s with
    | [] => simp [removeAllFuel]
    | c :: rest =>
      simp only [removeAllFuel]
      cases h : try? (c :: rest) with
      | none =>
        have := ih rest
        simp only [List.length_cons]
        omega
      | some m =>
        cases m with
        | zero =>
          have := ih rest
          simp only [List.length_cons]
          omega
        | succ k =>
          have h1 := ih (rest.drop k)
          have h2 : (rest.drop k).length ≤ rest.length := by
            simp [List.length_drop]
          simp only [List.length_cons]
          omega

theorem removeAll_length_le (try? : List Char → Option Nat) (s : List Char) :
    (removeAll try? s).length ≤ s.length :=
  removeAllFuel_length_le try? s.length s

namespace AmriaSecurity

/-! ### `_config` of `js/main.js` -/

def maxInputLength : Nat := 1000
def maxNameLength : Nat := 100
def maxEmailLength : Nat := 254
def maxPhoneLength : Nat := 20
def maxMessageLength : Nat := 5000

/-- The `_config.rateLimit.maxAttempts` constant. -/
def maxAttempts : Nat := 3
/-- The `_config.rateLimit.windowMs` constant (1 minute). -/
def windowMs : Int := 60000
/-- The `_config.rateLimit.blockDurationMs` constant (5 minutes). -/
def blockDurationMs : Int := 300000

/-! ### Rate limiter (`checkRateLimit`, `_rateLimiter`, `_blockedIPs`) -/

/-- Entry of the `_rateLimiter` map:
`{ count, firstAttempt, attempts }`. -/
structure RateRecord where
  count : Nat
  firstAttempt : Int
  attempts : List Int
deriving DecidableEq, Repr

/-- Entry of the `_blockedIPs` map: `{ until }` (field renamed because
`until` is reserved in Lean). -/
structure BlockRecord where
  blockUntil : Int
deriving DecidableEq, Repr

/-- The module-private mutable maps, modelled as functions. -/
structure RateLimiterState where
  rateLimiter : String → Option RateRecord
  blockedIPs : String → Option BlockRecord

/-- The state with both maps empty (module load). -/
def emptyState : RateLimiterState :=
  { rateLimiter := fun _ => none, blockedIPs := fun _ => none }

/-- Result object of `checkRateLimit`: either
`{ allowed: true, remaining }` or
`{ allowed: false, blocked: true, remainingSeconds }`. -/
inductive RateLimitResult
  | allowedRes (remaining : Nat)
  | blockedRes (remainingSeconds : Int)
deriving DecidableEq, Repr

/-- The un-blocked tail of `checkRateLimit` (everything after the block
record has been checked and, if expired, deleted). -/
def checkRateLimitUnblocked (st : RateLimiterState) (key : String) (now : Int) :
    RateLimitResult × RateLimiterState :=
  match st.rateLimiter key with
  | none =>
    (.allowedRes (maxAttempts - 1),
     { st with rateLimiter :=
         Function.update st.rateLimiter key (some ⟨1, now, [now]⟩) })
  | some record =>
    if windowMs < now - record.firstAttempt then
      -- window expired: reset as if first call
      (.allowedRes (maxAttempts - 1),
       { st with rateLimiter :=
           Function.update st.rateLimiter key (some ⟨1, now, [now]⟩) })
    else if maxAttempts ≤ record.count then
      -- block the user
      (.blockedRes (blockDurationMs / 1000),
       { st with blockedIPs :=
           Function.update st.blockedIPs key (some ⟨now + blockDurationMs⟩) })
    else
      (.allowedRes (maxAttempts - (record.count + 1)),
       { st with rateLimiter :=
           Function.update st.rateLimiter key (some ⟨record.count + 1, record.firstAttempt, record.attempts ++ [now]⟩) })

/-- The `checkRateLimit(key)` call at time `now`, returning the result object and the
updated module state. -/
def checkRateLimit (st : RateLimiterState) (key : String) (now : Int) :
    RateLimitResult × RateLimiterState :=
  match st.blockedIPs key with
  | some blockRecord =>
    if now < blockRecord.blockUntil then
      (.blockedRes ((blockRecord.blockUntil - now + 999) / 1000), st)
    else
      -- clear old block, then fall through
      checkRateLimitUnblocked
        { st with blockedIPs := Function.update st.blockedIPs key none }
        key now
  | none => checkRateLimitUnblocked st key now

/-- A sequence of `checkRateLimit` calls for one key at the given times;
returns the list of results and the final state. -/
def runRateCalls (st : RateLimiterState) (key : String) :
    List Int → List RateLimitResult × RateLimiterState
  | [] => ([], st)
  | t :: ts =>
    let r := checkRateLimit st key t
    let rs := runRateCalls r.2 key ts
    (r.1 :: rs.1, rs.2)

/-! Step lemmas for `checkRateLimit`, one per branch of the source. -/

theorem checkRateLimit_fresh {st : RateLimiterState} {key : String} (now : Int)
    (hb : st.blockedIPs key = none) (hr : st.rateLimiter key = none) :
    checkRateLimit st key now =
      (.allowedRes (maxAttempts - 1),
       { st with rateLimiter :=
           Function.update st.rateLimiter key (some ⟨1, now, [now]⟩) }) := by
  simp [checkRateLimit, checkRateLimitUnblocked, hb, hr]

theorem checkRateLimit_increment {st : RateLimiterState} {key : String}
    {record : RateRecord} {now : Int}
    (hb : st.blockedIPs key = none) (hr : st.rateLimiter key = some record)
    (hw : now - record.firstAttempt ≤ windowMs) (hc : record.count < maxAttempts) :
    checkRateLimit st key now =
      (.allowedRes (maxAttempts - (record.count + 1)),
       { st with rateLimiter :=
           Function.update st.rateLimiter key (some ⟨record.count + 1, record.firstAttempt, record.attempts ++ [now]⟩) }) := by
  simp only [checkRateLimit, checkRateLimitUnblocked, hb, hr]
  rw [if_neg (by omega), if_neg (by omega)]

theorem checkRateLimit_block {st : RateLimiterState} {key : String}
    {record : RateRecord} {now : Int}
    (hb : st.blockedIPs key = none) (hr : st.rateLimiter key = some record)
    (hw : now - record.firstAttempt ≤ windowMs) (hc : maxAttempts ≤ record.count) :
    checkRateLimit st key now =
      (.blockedRes (blockDurationMs / 1000),
       { st with blockedIPs :=
           Function.update st.blockedIPs key (some ⟨now + blockDurationMs⟩) }) := by
  simp only [checkRateLimit, checkRateLimitUnblocked, hb, hr]
  rw [if_neg (by omega), if_pos hc]

theorem checkRateLimit_reset {st : RateLimiterState} {key : String}
    {record : RateRecord} {now : Int}
    (hb : st.blockedIPs key = none) (hr : st.rateLimiter key = some record)
    (hw : windowMs < now - record.firstAttempt) :
    checkRateLimit st key now =
      (.allowedRes (maxAttempts - 1),
       { st with rateLimiter :=
           Function.update st.rateLimiter key (some ⟨1, now, [now]⟩) }) := by
  simp only [checkRateLimit, checkRateLimitUnblocked, hb, hr]
  rw [if_pos hw]

theorem checkRateLimit_blockedActive {st : RateLimiterState} {key : String}
    {b : BlockRecord} {now : Int}
    (hb : st.blockedIPs key = some b) (h : now < b.blockUntil) :
    checkRateLimit st key now =
      (.blockedRes ((b.blockUntil - now + 999) / 1000), st) := by
  simp only [checkRateLimit, hb]
  rw [if_pos h]

theorem checkRateLimit_blockExpired {st : RateLimiterState} {key : String}
    {b : BlockRecord} {now : Int}
    (hb : st.blockedIPs key = some b) (h : b.blockUntil ≤ now) :
    checkRateLimit st key now =
      checkRateLimitUnblocked
        { st with blockedIPs := Function.update st.blockedIPs key none }
        key now := by
  simp only [checkRateLimit, hb]
  rw [if_neg (by omega)]

end AmriaSecurity

namespace AmriaSecurity

theorem checkRateLimitUnblocked_reset {st : RateLimiterState} {key : String}
    {record : RateRecord} {now : Int}
    (hr : st.rateLimiter key = some record)
    (hw : windowMs < now - record.firstAttempt) :
    checkRateLimitUnblocked st key now =
      (.allowedRes (maxAttempts - 1),
       { st with rateLimiter :=
           Function.update st.rateLimiter key (some ⟨1, now, [now]⟩) }) := by
  simp only [checkRateLimitUnblocked, hr]
  rw [if_pos hw]

theorem runRateCalls_cons (st : RateLimiterState) (key : String) (t : Int) (ts : List Int) :
    runRateCalls st key (t :: ts) =
      ((checkRateLimit st key t).1 :: (runRateCalls (checkRateLimit st key t).2 key ts).1,
       (runRateCalls (checkRateLimit st key t).2 key ts).2) := rfl

theorem runRateCalls_nil (st : RateLimiterState) (key : String) :
    runRateCalls st key [] = ([], st) := rfl

/-- Claim C1: for a fresh key, three `checkRateLimit` calls inside the
60000 ms window are allowed with strictly decreasing remaining 2, 1, 0; the
fourth call inside the window is blocked with `remainingSeconds = 300`; and
a call at or after `blockDurationMs` (300000 ms) past the blocking call is
allowed again with `remaining = maxAttempts - 1 = 2`. -/
theorem checkRateLimit_c1
    (st : RateLimiterState) (key : String) (t1 t2 t3 t4 t5 : Int)
    (hb : st.blockedIPs key = none) (hr : st.rateLimiter key = none)
    (h12 : t1 ≤ t2) (h23 : t2 ≤ t3) (h34 : t3 ≤ t4)
    (hw2 : t2 - t1 ≤ windowMs) (hw3 : t3 - t1 ≤ windowMs) (hw4 : t4 - t1 ≤ windowMs)
    (h45 : t4 + blockDurationMs ≤ t5) :
    (runRateCalls st key [t1, t2, t3, t4, t5]).1 =
      [.allowedRes 2, .allowedRes 1, .allowedRes 0, .blockedRes 300, .allowedRes 2] := by
  replace hw2 : t2 - t1 ≤ 60000 := hw2
  replace hw3 : t3 - t1 ≤ 60000 := hw3
  replace hw4 : t4 - t1 ≤ 60000 := hw4
  replace h45 : t4 + 300000 ≤ t5 := h45
  -- call 1: fresh key
  rw [runRateCalls_cons, checkRateLimit_fresh t1 hb hr]
  dsimp only
  -- call 2: increment to count 2
  have hb1 : RateLimiterState.blockedIPs
      { rateLimiter := Function.update st.rateLimiter key (some ⟨1, t1, [t1]⟩),
        blockedIPs := st.blockedIPs } key = none := hb
  have hr1 : RateLimiterState.rateLimiter
      { rateLimiter := Function.update st.rateLimiter key (some ⟨1, t1, [t1]⟩),
        blockedIPs := st.blockedIPs } key = some ⟨1, t1, [t1]⟩ := by simp
  rw [runRateCalls_cons, checkRateLimit_increment hb1 hr1 hw2 (by simp [maxAttempts])]
  dsimp only
  -- call 3: increment to count 3
  have hb2 : RateLimiterState.blockedIPs
      { rateLimiter := Function.update
          (Function.update st.rateLimiter key (some ⟨1, t1, [t1]⟩)) key
          (some ⟨1 + 1, t1, [t1] ++ [t2]⟩),
        blockedIPs := st.blockedIPs } key = none := hb
  have hr2 : RateLimiterState.rateLimiter
      { rateLimiter := Function.update
          (Function.update st.rateLimiter key (some ⟨1, t1, [t1]⟩)) key
          (some ⟨1 + 1, t1, [t1] ++ [t2]⟩),
        blockedIPs := st.blockedIPs } key = some ⟨1 + 1, t1, [t1] ++ [t2]⟩ := by simp
  rw [runRateCalls_cons, checkRateLimit_increment hb2 hr2 hw3 (by simp [maxAttempts])]
  dsimp only
  -- call 4: blocked
  have hb3 : RateLimiterState.blockedIPs
      { rateLimiter := Function.update
          (Function.update
            (Function.update st.rateLimiter key (some ⟨1, t1, [t1]⟩)) key
            (some ⟨1 + 1, t1, [t1] ++ [t2]⟩)) key
          (some ⟨1 + 1 + 1, t1, [t1] ++ [t2] ++ [t3]⟩),
        blockedIPs := st.blockedIPs } key = none := hb
  have hr3 : RateLimiterState.rateLimiter
      { rateLimiter := Function.update
          (Function.update
            (Function.update st.rateLimiter key (some ⟨1, t1, [t1]⟩)) key
            (some ⟨1 + 1, t1, [t1] ++ [t2]⟩)) key
          (some ⟨1 + 1 + 1, t1, [t1] ++ [t2] ++ [t3]⟩),
        blockedIPs := st.blockedIPs } key = some ⟨1 + 1 + 1, t1, [t1] ++ [t2] ++ [t3]⟩ := by
    simp
  rw [runRateCalls_cons, checkRateLimit_block hb3 hr3 hw4 (by simp [maxAttempts])]
  dsimp only
  -- call 5: block expired, window expired, reset
  have hb4 : RateLimiterState.blockedIPs
      { rateLimiter := Function.update
          (Function.update
            (Function.update st.rateLimiter key (some ⟨1, t1, [t1]⟩)) key
            (some ⟨1 + 1, t1, [t1] ++ [t2]⟩)) key
          (some ⟨1 + 1 + 1, t1, [t1] ++ [t2] ++ [t3]⟩),
        blockedIPs := Function.update st.blockedIPs key
          (some ⟨t4 + blockDurationMs⟩) } key = some ⟨t4 + blockDurationMs⟩ := by simp
  rw [runRateCalls_cons, checkRateLimit_blockExpired hb4 h45]
  dsimp only
  have hr5 : RateLimiterState.rateLimiter
      { rateLimiter := Function.update
          (Function.update
            (Function.update st.rateLimiter key (some ⟨1, t1, [t1]⟩)) key
            (some ⟨1 + 1, t1, [t1] ++ [t2]⟩)) key
          (some ⟨1 + 1 + 1, t1, [t1] ++ [t2] ++ [t3]⟩),
        blockedIPs := Function.update
          (Function.update st.blockedIPs key (some ⟨t4 + blockDurationMs⟩)) key
          none } key = some ⟨1 + 1 + 1, t1, [t1] ++ [t2] ++ [t3]⟩ := by simp
  have hw5 : (60000 : Int) < t5 - t1 := by omega
  rw [checkRateLimitUnblocked_reset hr5 hw5]
  dsimp only
  rw [runRateCalls_nil]
  dsimp only
  decide


/-- Witness for C1 at concrete times `0, 0, 0, 0, 300000` from the empty
module state. -/
theorem checkRateLimit_c1_witness :
    (runRateCalls emptyState "k" [0, 0, 0, 0, 300000]).1 =
      [.allowedRes 2, .allowedRes 1, .allowedRes 0, .blockedRes 300, .allowedRes 2] :=
  checkRateLimit_c1 emptyState "k" 0 0 0 0 300000 rfl rfl (by decide) (by decide)
    (by decide) (by decide) (by decide) (by decide) (by decide)


/-- Claim C4: for a key with an existing rate record that has not reached
`maxAttempts`, a call more than `windowMs` after the previous call for that
key (the record's window started no later than that previous call) behaves
exactly as a first call: the counter resets to 1 and the result is allowed
with `remaining = maxAttempts - 1 = 2`. -/
theorem checkRateLimit_c4_window_reset
    (st : RateLimiterState) (key : String) (record : RateRecord) (tprev now : Int)
    (hb : st.blockedIPs key = none) (hr : st.rateLimiter key = some record)
    (hc : record.count < maxAttempts) (hfa : record.firstAttempt ≤ tprev)
    (hw : windowMs < now - tprev) :
    checkRateLimit st key now =
      (.allowedRes (maxAttempts - 1),
       { st with rateLimiter :=
           Function.update st.rateLimiter key (some ⟨1, now, [now]⟩) }) := by
  apply checkRateLimit_reset hb hr
  omega

/-- Witness for C4: a record with count 1 created at time 0, next call at
70000 ms > windowMs later resets to a fresh record. -/
theorem checkRateLimit_c4_witness :
    checkRateLimit
      { rateLimiter := Function.update (fun _ => none) "k" (some ⟨1, 0, [0]⟩),
        blockedIPs := fun _ => none } "k" 70000 =
      (.allowedRes 2,
       { rateLimiter := Function.update
           (Function.update (fun _ => none) "k" (some ⟨1, 0, [0]⟩)) "k"
           (some ⟨1, 70000, [70000]⟩),
         blockedIPs := fun _ => none }) :=
  checkRateLimit_c4_window_reset
    { rateLimiter := Function.update (fun _ => none) "k" (some ⟨1, 0, [0]⟩),
      blockedIPs := fun _ => none } "k" ⟨1, 0, [0]⟩ 0 70000 rfl (by simp)
    (by decide) (by decide) (by decide)

/-- Counterexample to claim C3 as stated: after the blocking (4th) call for
a fresh key, the key is present in BOTH maps at once — `checkRateLimit`
creates the block record without deleting the rate record. -/
theorem c3_counterexample :
    (((runRateCalls emptyState "k" [0, 0, 0, 0]).2).blockedIPs "k").isSome = true ∧
    (((runRateCalls emptyState "k" [0, 0, 0, 0]).2).rateLimiter "k").isSome = true := by
  decide

/-- Amended C3: after a blocking call the key stays in both maps, but the
block supersedes the stale rate record behaviorally: while the block is
active every call returns blocked without consulting or changing the rate
record, and any call at or after the unblock time behaves as for a fresh
key (the leftover record's window has necessarily expired, because
`blockDurationMs > windowMs`). -/
theorem c3_block_supersedes
    (st : RateLimiterState) (key : String) (record : RateRecord) (t : Int)
    (hb : st.blockedIPs key = none) (hr : st.rateLimiter key = some record)
    (hc : maxAttempts ≤ record.count)
    (hfa : record.firstAttempt ≤ t) (hw : t - record.firstAttempt ≤ windowMs) :
    ((checkRateLimit st key t).1 = .blockedRes 300) ∧
    ((checkRateLimit st key t).2.blockedIPs key = some ⟨t + blockDurationMs⟩) ∧
    ((checkRateLimit st key t).2.rateLimiter key = some record) ∧
    (∀ u, u < t + blockDurationMs →
      checkRateLimit (checkRateLimit st key t).2 key u =
        (.blockedRes ((t + blockDurationMs - u + 999) / 1000), (checkRateLimit st key t).2)) ∧
    (∀ u, t + blockDurationMs ≤ u →
      ((checkRateLimit (checkRateLimit st key t).2 key u).1 = .allowedRes (maxAttempts - 1) ∧
       (checkRateLimit (checkRateLimit st key t).2 key u).2.rateLimiter key = some ⟨1, u, [u]⟩ ∧
       (checkRateLimit (checkRateLimit st key t).2 key u).2.blockedIPs key = none)) := by
  rw [checkRateLimit_block hb hr hw hc]
  dsimp only
  have hb4 : RateLimiterState.blockedIPs
      { st with blockedIPs :=
          Function.update st.blockedIPs key (some ⟨t + blockDurationMs⟩) } key =
      some ⟨t + blockDurationMs⟩ := by simp
  refine ⟨by decide, by simp, hr, ?_, ?_⟩
  · intro u hu
    exact checkRateLimit_blockedActive hb4 hu
  · intro u hu
    rw [checkRateLimit_blockExpired hb4 hu]
    have hr5 : RateLimiterState.rateLimiter
        { rateLimiter := st.rateLimiter,
          blockedIPs := Function.update
            (Function.update st.blockedIPs key (some ⟨t + blockDurationMs⟩)) key
            none } key = some record := hr
    have hw5 : windowMs < u - record.firstAttempt := by
      simp only [windowMs, blockDurationMs] at *
      omega
    rw [checkRateLimitUnblocked_reset hr5 hw5]
    refine ⟨rfl, by simp, by simp⟩

/-- Concrete state for the C3 witness: key "k" has a rate record with
count 3 inside the current window and no block record. -/
def c3WitnessState : RateLimiterState :=
  { rateLimiter := Function.update (fun _ => none) "k" (some ⟨3, 0, [0, 0, 0]⟩),
    blockedIPs := fun _ => none }

/-- Witness for the amended C3 at a concrete state and concrete times. -/
theorem c3_block_supersedes_witness :
    ((checkRateLimit c3WitnessState "k" 0).1 = .blockedRes 300) ∧
    ((checkRateLimit c3WitnessState "k" 0).2.blockedIPs "k" = some ⟨300000⟩) ∧
    ((checkRateLimit c3WitnessState "k" 0).2.rateLimiter "k" = some ⟨3, 0, [0, 0, 0]⟩) ∧
    (checkRateLimit (checkRateLimit c3WitnessState "k" 0).2 "k" 100000 =
      (.blockedRes 200, (checkRateLimit c3WitnessState "k" 0).2)) ∧
    ((checkRateLimit (checkRateLimit c3WitnessState "k" 0).2 "k" 300000).1 = .allowedRes 2) := by
  have h := c3_block_supersedes c3WitnessState "k" ⟨3, 0, [0, 0, 0]⟩ 0 rfl
    (by simp [c3WitnessState]) (by decide) (by decide) (by decide)
  exact ⟨h.1, h.2.1, h.2.2.1, h.2.2.2.1 100000 (by decide),
    (h.2.2.2.2 300000 (by decide)).1⟩

/-! ### `sanitize` (`js/main.js` lines 71-104)

The ten `_config.dangerousPatterns` regexes are modelled by deterministic
matchers (each reports the length of the match starting at the head of the
list, if any), applied by `removeAll` with the semantics of a global
`String.replace(pattern, '')`: leftmost non-overlapping matches, the scan
resuming after each match. -/

/-- Case-insensitive literal prefix match: `pat` must be given lowercase;
returns the match length. -/
def matchCI (pat : List Char) (s : List Char) : Option Nat :=
  if (s.take pat.length).map Char.toLower = pat then some pat.length else none

/-- Matcher for `/on\w+\s*=/gi` at the head of the list.  The character
classes `\w`, `\s` and `=` are disjoint, so the greedy quantifiers are
deterministic. -/
def matchOnEvent (s : List Char) : Option Nat :=
  match s with
  | o :: n :: rest =>
    if (o.toLower == 'o') && (n.toLower == 'n') then
      let w := rest.takeWhile isWordChar
      if w.length = 0 then none
      else
        let rest2 := rest.drop w.length
        let sp := rest2.takeWhile isJsSpace
        match rest2.drop sp.length with
        | '=' :: _ => some (2 + w.length + sp.length + 1)
        | _ => none
    else none
  | _ => none

/-- Matcher for `/expression\s*\(/gi` at the head of the list. -/
def matchExpression (s : List Char) : Option Nat :=
  match matchCI "expression".toList s with
  | some n =>
    let rest := s.drop n
    let sp := rest.takeWhile isJsSpace
    match rest.drop sp.length with
    | '(' :: _ => some (n + sp.length + 1)
    | _ => none
  | none => none

/-- Index of the first case-insensitive occurrence of `pat` (given
lowercase) in the list, if any. -/
def findSubCI (pat : List Char) : List Char → Option Nat
  | [] => none
  | c :: rest =>
    match matchCI pat (c :: rest) with
    | some _ => some 0
    | none => (findSubCI pat rest).map (· + 1)

/-- Matcher for `/<script\b[^<]*(?:(?!<\/script>)<[^<]*)*<\/script>/gi` at
the head of the list.  The tempered pattern matches from `<script` (with a
word boundary after it) to the FIRST following `</script>`, inclusive. -/
def matchScriptBlock (s : List Char) : Option Nat :=
  match matchCI "<script".toList s with
  | some _ =>
    let rest := s.drop 7
    let boundaryOK : Bool :=
      match rest with
      | [] => true
      | c :: _ => !isWordChar c
    if boundaryOK then
      match findSubCI "</script>".toList rest with
      | some i => some (7 + i + 9)
      | none => none
    else none
  | none => none

/-- The `_config.dangerousPatterns.forEach(p => clean = clean.replace(p, ''))`
loop, pattern by pattern in source order. -/
def dangerousRemove (s : List Char) : List Char :=
  let s1 := removeAll matchScriptBlock s
  let s2 := removeAll (matchCI "javascript:".toList) s1
  let s3 := removeAll matchOnEvent s2
  let s4 := removeAll (matchCI "data:".toList) s3
  let s5 := removeAll (matchCI "vbscript:".toList) s4
  let s6 := removeAll matchExpression s5
  let s7 := removeAll (matchCI "<iframe".toList) s6
  let s8 := removeAll (matchCI "<object".toList) s7
  let s9 := removeAll (matchCI "<embed".toList) s8
  removeAll (matchCI "<form".toList) s9

/-- HTML-entity encoding of one character as performed by reading back
`div.innerHTML` after setting `div.textContent` (ASCII part: `&`, `<`, `>`
are encoded). -/
def htmlEncodeChar (c : Char) : List Char :=
  if c = '&' then "&amp;".toList
  else if c = '<' then "&lt;".toList
  else if c = '>' then "&gt;".toList
  else [c]

/-- The `div.textContent` / `div.innerHTML` entity-encoding step. -/
def htmlEncode (l : List Char) : List Char := charwise htmlEncodeChar l

/-- One `clean.replace(/x/g, 'entity')` call for a single character `t`. -/
def replaceCharWith (t : Char) (r : List Char) (l : List Char) : List Char :=
  charwise (fun c => if c = t then r else [c]) l

/-- The `maxLength` lookup table of `sanitize` (unknown types fall back to
`_config.maxInputLength`). -/
def maxLengthFor (ty : String) : Nat :=
  match ty with
  | "name" => maxNameLength
  | "email" => maxEmailLength
  | "phone" => maxPhoneLength
  | "message" => maxMessageLength
  | "text" => maxInputLength
  | _ => maxInputLength

/-- The `sanitize(input, type)` function: trim, truncate to the per-type maximum,
remove the dangerous patterns, entity-encode, then escape the quote,
backtick and parenthesis characters (`Char.ofNat 39` is the apostrophe,
`Char.ofNat 96` the backtick). -/
def sanitize (input : List Char) (ty : String) : List Char :=
  let clean1 := (jsTrim input).take (maxLengthFor ty)
  let clean2 := dangerousRemove clean1
  let clean3 := htmlEncode clean2
  let clean4 := replaceCharWith (Char.ofNat 39) "&#x27;".toList clean3
  let clean5 := replaceCharWith '"' "&quot;".toList clean4
  let clean6 := replaceCharWith (Char.ofNat 96) "&#x60;".toList clean5
  let clean7 := replaceCharWith '(' "&#40;".toList clean6
  replaceCharWith ')' "&#41;".toList clean7

/-- The encoding pipeline of `sanitize` applied to a single character. -/
def sanitizeEncodeChar (c : Char) : List Char :=
  replaceCharWith ')' "&#41;".toList
    (replaceCharWith '(' "&#40;".toList
      (replaceCharWith (Char.ofNat 96) "&#x60;".toList
        (replaceCharWith '"' "&quot;".toList
          (replaceCharWith (Char.ofNat 39) "&#x27;".toList (htmlEncodeChar c)))))

theorem sanitize_eq_charwise (input : List Char) (ty : String) :
    sanitize input ty =
      charwise sanitizeEncodeChar
        (dangerousRemove ((jsTrim input).take (maxLengthFor ty))) := by
  simp only [sanitize, htmlEncode, replaceCharWith, charwise_charwise]
  congr 1
  funext c
  simp only [sanitizeEncodeChar, replaceCharWith, charwise_charwise]

theorem sanitizeEncodeChar_length_le (c : Char) :
    (sanitizeEncodeChar c).length ≤ 6 := by
  by_cases h1 : c = '&'
  · subst h1; decide
  by_cases h2 : c = '<'
  · subst h2; decide
  by_cases h3 : c = '>'
  · subst h3; decide
  by_cases h4 : c = Char.ofNat 39
  · subst h4; decide
  by_cases h5 : c = '"'
  · subst h5; decide
  by_cases h6 : c = Char.ofNat 96
  · subst h6; decide
  by_cases h7 : c = '('
  · subst h7; decide
  by_cases h8 : c = ')'
  · subst h8; decide
  simp [sanitizeEncodeChar, htmlEncodeChar, replaceCharWith, charwise,
    h1, h2, h3, h4, h5, h6, h7, h8]

theorem lt_not_mem_sanitizeEncodeChar (c : Char) :
    '<' ∉ sanitizeEncodeChar c := by
  by_cases h1 : c = '&'
  · subst h1; decide
  by_cases h2 : c = '<'
  · subst h2; decide
  by_cases h3 : c = '>'
  · subst h3; decide
  by_cases h4 : c = Char.ofNat 39
  · subst h4; decide
  by_cases h5 : c = '"'
  · subst h5; decide
  by_cases h6 : c = Char.ofNat 96
  · subst h6; decide
  by_cases h7 : c = '('
  · subst h7; decide
  by_cases h8 : c = ')'
  · subst h8; decide
  simp [sanitizeEncodeChar, htmlEncodeChar, replaceCharWith, charwise,
    h1, h2, h3, h4, h5, h6, h7, h8]
  exact fun h => h2 h.symm

theorem paren_not_mem_sanitizeEncodeChar (c : Char) :
    '(' ∉ sanitizeEncodeChar c := by
  by_cases h1 : c = '&'
  · subst h1; decide
  by_cases h2 : c = '<'
  · subst h2; decide
  by_cases h3 : c = '>'
  · subst h3; decide
  by_cases h4 : c = Char.ofNat 39
  · subst h4; decide
  by_cases h5 : c = '"'
  · subst h5; decide
  by_cases h6 : c = Char.ofNat 96
  · subst h6; decide
  by_cases h7 : c = '('
  · subst h7; decide
  by_cases h8 : c = ')'
  · subst h8; decide
  simp [sanitizeEncodeChar, htmlEncodeChar, replaceCharWith, charwise,
    h1, h2, h3, h4, h5, h6, h7, h8]
  exact fun h => h7 h.symm

theorem not_mem_sanitize_lt (input : List Char) (ty : String) :
    '<' ∉ sanitize input ty := by
  rw [sanitize_eq_charwise]
  intro h
  obtain ⟨c, _, hc⟩ := mem_charwise h
  exact lt_not_mem_sanitizeEncodeChar c hc

theorem not_mem_sanitize_paren (input : List Char) (ty : String) :
    '(' ∉ sanitize input ty := by
  rw [sanitize_eq_charwise]
  intro h
  obtain ⟨c, _, hc⟩ := mem_charwise h
  exact paren_not_mem_sanitizeEncodeChar c hc

end AmriaSecurity

theorem seqPrefixOf_mem {c : Char} :
    ∀ {p l : List Char}, seqPrefixOf p l = true → c ∈ p → c ∈ l := by
  intro p
  induction p with
  | nil => intro l _ hc; simp at hc
  | cons a p ih =>
    intro l hp hc
    match l with
    | [] => simp [seqPrefixOf] at hp
    | b :: l =>
      simp only [seqPrefixOf, Bool.and_eq_true, beq_iff_eq] at hp
      rcases List.mem_cons.mp hc with h | h
      · subst h; rw [hp.1]; exact List.mem_cons_self _ _
      · exact List.mem_cons_of_mem _ (ih hp.2 h)

theorem listContains_mem {c : Char} {pat : List Char} :
    ∀ {l : List Char}, listContains pat l = true → c ∈ pat → c ∈ l := by
  intro l
  induction l with
  | nil =>
    intro h hc
    simp only [listContains, List.isEmpty_iff] at h
    subst h; simp at hc
  | cons b l ih =>
    intro h hc
    simp only [listContains, Bool.or_eq_true] at h
    rcases h with h | h
    · exact seqPrefixOf_mem h hc
    · exact List.mem_cons_of_mem _ (ih h hc)

theorem listContains_eq_false {c : Char} {pat l : List Char}
    (hc : c ∈ pat) (h : c ∉ l) : listContains pat l = false := by
  cases hl : listContains pat l
  · rfl
  · exact absurd (listContains_mem hl hc) h

namespace AmriaSecurity

/-- Claim C2 (amended): the output of `sanitize` contains no `<` and no `(`
character (both are entity-encoded away), hence none of the `<`-based
dangerous substrings and no `expression(` substring, for every input and
every field type.  (The remaining dangerous substrings can survive: see the
counterexample.) -/
theorem sanitize_c2_encoded (input : List Char) (ty : String) :
    '<' ∉ sanitize input ty ∧ '(' ∉ sanitize input ty ∧
    listContains "<script".toList (sanitize input ty) = false ∧
    listContains "<iframe".toList (sanitize input ty) = false ∧
    listContains "<object".toList (sanitize input ty) = false ∧
    listContains "<embed".toList (sanitize input ty) = false ∧
    listContains "<form".toList (sanitize input ty) = false ∧
    listContains "expression(".toList (sanitize input ty) = false := by
  refine ⟨not_mem_sanitize_lt input ty, not_mem_sanitize_paren input ty,
    listContains_eq_false (by decide) (not_mem_sanitize_lt input ty),
    listContains_eq_false (by decide) (not_mem_sanitize_lt input ty),
    listContains_eq_false (by decide) (not_mem_sanitize_lt input ty),
    listContains_eq_false (by decide) (not_mem_sanitize_lt input ty),
    listContains_eq_false (by decide) (not_mem_sanitize_lt input ty),
    listContains_eq_false (by decide) (not_mem_sanitize_paren input ty)⟩

/-- Counterexample to claim C2 as stated: the single-pass removal of
`javascript:` splices a NEW `javascript:` occurrence together, which then
survives entity encoding, so the sanitized output still contains a
configured dangerous substring. -/
theorem sanitize_c2_counterexample :
    listContains "javascript:".toList
      (sanitize "javajavascript:script:".toList "text") = true := by
  decide

/-- Claim C9: `sanitize` truncates to the per-type maximum before encoding,
and each surviving character expands to at most 6 characters, so the output
length is at most 6 times the configured per-type maximum (name 100,
email 254, phone 20, message 5000, generic text 1000). -/
theorem sanitize_c9_length_bound (input : List Char) (ty : String) :
    (sanitize input ty).length ≤ 6 * maxLengthFor ty ∧
    maxLengthFor "name" = 100 ∧ maxLengthFor "email" = 254 ∧
    maxLengthFor "phone" = 20 ∧ maxLengthFor "message" = 5000 ∧
    maxLengthFor "text" = 1000 := by
  refine ⟨?_, rfl, rfl, rfl, rfl, rfl⟩
  rw [sanitize_eq_charwise]
  have h1 := charwise_length_le sanitizeEncodeChar 6 sanitizeEncodeChar_length_le
    (dangerousRemove ((jsTrim input).take (maxLengthFor ty)))
  have h2 : (dangerousRemove ((jsTrim input).take (maxLengthFor ty))).length ≤
      ((jsTrim input).take (maxLengthFor ty)).length := by
    simp only [dangerousRemove]
    exact le_trans (removeAll_length_le _ _)
      (le_trans (removeAll_length_le _ _)
        (le_trans (removeAll_length_le _ _)
          (le_trans (removeAll_length_le _ _)
            (le_trans (removeAll_length_le _ _)
              (le_trans (removeAll_length_le _ _)
                (le_trans (removeAll_length_le _ _)
                  (le_trans (removeAll_length_le _ _)
                    (le_trans (removeAll_length_le _ _)
                      (removeAll_length_le _ _)))))))))
  have h3 : ((jsTrim input).take (maxLengthFor ty)).length ≤ maxLengthFor ty :=
    List.length_take_le _ _
  have := Nat.mul_le_mul_left 6 (le_trans h2 h3)
  omega

/-! ### `detectBot` (`js/main.js` lines 187-199) -/

/-- The JS values relevant to the `navigator.webdriver` check. -/
inductive JSVal
  | undefined
  | null
  | boolean (b : Bool)
  | str (s : String)
deriving DecidableEq, Repr

/-- JS truthiness for `JSVal`. -/
def jsTruthy : JSVal → Bool
  | .undefined => false
  | .null => false
  | .boolean b => b
  | .str s => !s.isEmpty

/-- JS `!v`: negation of truthiness, always a boolean. -/
def jsNot (v : JSVal) : JSVal := .boolean (!jsTruthy v)

/-- JS `v === undefined`. -/
def strictEqUndefined : JSVal → Bool
  | .undefined => true
  | _ => false

/-- The browser-environment signals read by `detectBot`. -/
structure BrowserEnv where
  webdriver : JSVal
  languages : Option (List String)
  chrome : Bool
  userAgent : String

/-- The `detectBot()` heuristic: collect suspicion tags; returns `null` (here `none`)
when the list is empty. -/
def detectBot (e : BrowserEnv) : Option (List String) :=
  let suspicious : List String := []
  let suspicious :=
    if strictEqUndefined (jsNot e.webdriver) then suspicious ++ ["webdriver"]
    else suspicious
  let suspicious :=
    if (match e.languages with | some ls => ls.isEmpty | none => false) then
      suspicious ++ ["no-languages"]
    else suspicious
  let suspicious :=
    if !e.chrome && strIncludes e.userAgent "Chrome" then
      suspicious ++ ["fake-chrome"]
    else suspicious
  let suspicious :=
    if strIncludes e.userAgent "HeadlessChrome" then suspicious ++ ["headless"]
    else suspicious
  if suspicious.length > 0 then some suspicious else none

/-- Claim C6: `!navigator.webdriver === undefined` parses as
`(!navigator.webdriver) === undefined`, which is false for every value of
`navigator.webdriver` (a boolean is never `undefined`), so `detectBot`
never reports the `webdriver` tag. -/
theorem detectBot_no_webdriver :
    (∀ v : JSVal, strictEqUndefined (jsNot v) = false) ∧
    (∀ (e : BrowserEnv) (l : List String), detectBot e = some l → "webdriver" ∉ l) := by
  have hwd : ∀ v : JSVal, strictEqUndefined (jsNot v) = false := by
    intro v; cases v <;> rfl
  refine ⟨hwd, ?_⟩
  intro e l h
  simp only [detectBot, hwd] at h
  split_ifs at h <;> simp_all <;> (rw [← h]; decide)

/-- Witness for C6: a headless user agent is reported, but never as
`webdriver`. -/
theorem detectBot_no_webdriver_witness :
    detectBot ⟨.boolean true, some ["en"], true, "HeadlessChrome"⟩ = some ["headless"] ∧
    "webdriver" ∉ ["headless"] :=
  ⟨by decide, detectBot_no_webdriver.2 ⟨.boolean true, some ["en"], true, "HeadlessChrome"⟩
    ["headless"] (by decide)⟩

/-! ### Validators (`isValidEmail`, `isValidPhone`, `isValidName`) -/

/-- The local-part character class of the email regex:
`[a-zA-Z0-9.!#$%&'*+/=?^_`{|}~-]` (`Char.ofNat 39/96/123/124/125` are the
apostrophe, backtick and brace/pipe characters). -/
def isEmailLocalChar (c : Char) : Bool :=
  c.isAlphanum || "!#$%&*+/=?^_~-.".toList.contains c ||
  c = Char.ofNat 39 || c = Char.ofNat 96 ||
  c = Char.ofNat 123 || c = Char.ofNat 124 || c = Char.ofNat 125

/-- Domain-label inner character class `[a-zA-Z0-9-]`. -/
def isDomainChar (c : Char) : Bool := c.isAlphanum || c = '-'

/-- One dot-separated domain label:
`[a-zA-Z0-9](?:[a-zA-Z0-9-]{0,61}[a-zA-Z0-9])?` — 1 to 63 characters,
first and last alphanumeric, the middle from `[a-zA-Z0-9-]`. -/
def isValidDomainLabel : List Char → Bool
  | [] => false
  | [c] => c.isAlphanum
  | c :: rest =>
    c.isAlphanum && decide (rest.length ≤ 62) &&
    rest.dropLast.all isDomainChar &&
    (match rest.getLast? with
     | some d => d.isAlphanum
     | none => false)

/-- The `isValidEmail` predicate: non-empty, at most 254 characters, and matching the
anchored regex — exactly one `@`, a non-empty local part over the local
character class, and a dot-separated sequence of valid domain labels. -/
def isValidEmail (email : String) : Bool :=
  if email = "" then false
  else if decide (maxEmailLength < email.length) then false
  else
    match splitOnChar '@' email.toList with
    | [localPart, domain] =>
      !localPart.isEmpty && localPart.all isEmailLocalChar &&
      (splitOnChar '.' domain).all isValidDomainLabel
    | _ => false

/-- The prefix-less core of the phone regex: `7[3-9][0-9]{8}`, anchored. -/
def matchPhoneCore : List Char → Bool
  | '7' :: d :: rest =>
    decide ('3' ≤ d) && decide (d ≤ '9') && decide (rest.length = 8) &&
    rest.all Char.isDigit
  | _ => false

/-- The anchored alternation `^(\+964|00964|0)?7[3-9][0-9]{8}$`. -/
def matchIraqiPhone (l : List Char) : Bool :=
  matchPhoneCore l ||
  (match l with
   | '+' :: '9' :: '6' :: '4' :: rest => matchPhoneCore rest
   | '0' :: '0' :: '9' :: '6' :: '4' :: rest => matchPhoneCore rest
   | '0' :: rest => matchPhoneCore rest
   | _ => false)

/-- The `isValidPhone` predicate: strip whitespace, hyphens and parentheses, check the
cleaned length and the Iraqi-mobile shape. -/
def isValidPhone (phone : String) : Bool :=
  if phone = "" then false
  else
    let cleaned := phone.toList.filter
      (fun c => !(isJsSpace c || c = '-' || c = '(' || c = ')'))
    if decide (maxPhoneLength < cleaned.length) then false
    else matchIraqiPhone cleaned

/-- Name character class: Arabic ranges U+0600-U+06FF and U+0750-U+077F,
Latin letters, whitespace, hyphen, apostrophe, period. -/
def isNameChar (c : Char) : Bool :=
  (decide (0x600 ≤ c.toNat) && decide (c.toNat ≤ 0x6FF)) ||
  (decide (0x750 ≤ c.toNat) && decide (c.toNat ≤ 0x77F)) ||
  c.isAlpha || isJsSpace c || c = '-' || c = Char.ofNat 39 || c = '.'

/-- The `isValidName` predicate: non-empty, length in [2, 100], all characters from the
name class. -/
def isValidName (name : String) : Bool :=
  if name = "" then false
  else if decide (name.length < 2) || decide (maxNameLength < name.length) then false
  else name.toList.all isNameChar

/-! ### `handleFormSubmit` data collection (`js/main.js` lines 302-345) -/

/-- A value stored in the sanitized `data` object (strings from sanitizing
a field; the number stored under `_timestamp`). -/
inductive FormValue
  | str (s : List Char)
  | num (n : Int)
deriving DecidableEq, Repr

/-- One submitted form entry: its `name`, its value, and the `type` of the
field element found by `form.querySelector([name=...])` (`"text"` when no
element is found). -/
structure FormField where
  name : String
  value : String
  fieldType : String
deriving DecidableEq, Repr

/-- The field-collection loop of `handleFormSubmit`: skip the honeypot
names, classify each field, sanitize into `data`, validate email/phone/name
inline — on the first validation failure stop (`hasErrors = true`, `break`)
with the entries collected so far.  Returns `(data, hasErrors)`. -/
def collectFields : List FormField → List (String × FormValue) × Bool
  | [] => ([], false)
  | f :: rest =>
    if f.name ∈ ["website", "url", "fax"] then collectFields rest
    else if f.fieldType = "email" then
      let entry := (f.name, FormValue.str (sanitize f.value.toList "email"))
      if isValidEmail f.value then
        let r := collectFields rest
        (entry :: r.1, r.2)
      else ([entry], true)
    else if f.fieldType = "tel" then
      let entry := (f.name, FormValue.str (sanitize f.value.toList "phone"))
      if (f.value != "") && !isValidPhone f.value then ([entry], true)
      else
        let r := collectFields rest
        (entry :: r.1, r.2)
    else if f.name = "name" || strIncludes f.name "name" then
      let entry := (f.name, FormValue.str (sanitize f.value.toList "name"))
      if isValidName f.value then
        let r := collectFields rest
        (entry :: r.1, r.2)
      else ([entry], true)
    else if f.name = "message" || f.fieldType = "textarea" then
      let r := collectFields rest
      ((f.name, FormValue.str (sanitize f.value.toList "message")) :: r.1, r.2)
    else
      let r := collectFields rest
      ((f.name, FormValue.str (sanitize f.value.toList "text")) :: r.1, r.2)

/-- The submit-handler pipeline of `handleFormSubmit` up to the callback
invocation: bot check, honeypot, timing, rate limit keyed by
`"form-" + fingerprint`, field collection/validation, required-fields
check; when everything passes, the callback receives the sanitized data
with the `_fingerprint`, `_timestamp`, `_csrf` metadata appended.  Returns
`some data` exactly when the callback is invoked (the in-flight guard and
the DOM side effects carry no data and are not modelled). -/
def handleFormSubmitData (benv : BrowserEnv) (honeypotTripped : Bool)
    (timingOK : Bool) (rlState : RateLimiterState) (fingerprint : String)
    (now : Int) (fields : List FormField) (requiredOK : Bool)
    (csrf : String) : Option (List (String × FormValue)) :=
  match detectBot benv with
  | some _ => none
  | none =>
    if honeypotTripped then none
    else if !timingOK then none
    else
      match (checkRateLimit rlState ("form-" ++ fingerprint) now).1 with
      | .blockedRes _ => none
      | .allowedRes _ =>
        let r := collectFields fields
        if r.2 then none
        else if !requiredOK then none
        else some (r.1 ++
          [("_fingerprint", FormValue.str fingerprint.toList),
           ("_timestamp", FormValue.num now),
           ("_csrf", FormValue.str csrf.toList)])

theorem collectFields_no_honeypot_keys :
    ∀ (fields : List FormField) (p : String × FormValue),
      p ∈ (collectFields fields).1 →
      p.1 ≠ "website" ∧ p.1 ≠ "url" ∧ p.1 ≠ "fax" := by
  intro fields
  induction fields with
  | nil => intro p hp; simp [collectFields] at hp
  | cons f rest ih =>
    intro p hp
    by_cases hhp : f.name ∈ (["website", "url", "fax"] : List String)
    · rw [collectFields] at hp
      rw [if_pos hhp] at hp
      exact ih p hp
    · have hf : f.name ≠ "website" ∧ f.name ≠ "url" ∧ f.name ≠ "fax" := by
        simp only [List.mem_cons, List.not_mem_nil, or_false, not_or] at hhp
        exact hhp
      rw [collectFields] at hp
      rw [if_neg hhp] at hp
      split_ifs at hp <;>
        simp only [List.mem_cons, List.mem_singleton] at hp <;>
        rcases hp with hp | hp <;>
        first
          | (subst hp; exact hf)
          | (exact ih p hp)
          | (simp at hp)

/-- Claim C10: whenever the `handleFormSubmit` pipeline reaches the
caller-supplied callback, the sanitized data object it receives contains no
entry named `website`, `url` or `fax` — those names (the injected honeypot
field included) are skipped by the collection loop, and the appended
security metadata uses other names. -/
theorem handleFormSubmit_c10
    (benv : BrowserEnv) (honeypotTripped timingOK : Bool)
    (rlState : RateLimiterState) (fingerprint : String) (now : Int)
    (fields : List FormField) (requiredOK : Bool) (csrf : String)
    (data : List (String × FormValue))
    (h : handleFormSubmitData benv honeypotTripped timingOK rlState fingerprint
          now fields requiredOK csrf = some data) :
    ∀ p ∈ data, p.1 ≠ "website" ∧ p.1 ≠ "url" ∧ p.1 ≠ "fax" := by
  intro p hp
  simp only [handleFormSubmitData] at h
  split at h
  · exact absurd h (by simp)
  · split_ifs at h <;> split at h <;> try exact Option.noConfusion h
    injection h with h
    subst h
    rcases List.mem_append.mp hp with hmem | hmem
    · exact collectFields_no_honeypot_keys fields p hmem
    · simp only [List.mem_cons, List.not_mem_nil, or_false] at hmem
      rcases hmem with hmem | hmem | hmem <;> (subst hmem; exact ⟨by simp, by simp, by simp⟩)

/-- Witness for C10: a submission with the injected honeypot field
`website` filled in; the callback data carries only `name` and the
metadata keys. -/
theorem handleFormSubmit_c10_witness :
    handleFormSubmitData ⟨.boolean false, some ["en"], true, "Mozilla"⟩ false true
        emptyState "fp" 0
        [⟨"website", "http://spam", "text"⟩, ⟨"name", "Ali", "text"⟩] true "tok" =
      some [("name", FormValue.str "Ali".toList),
            ("_fingerprint", FormValue.str "fp".toList),
            ("_timestamp", FormValue.num 0),
            ("_csrf", FormValue.str "tok".toList)] ∧
    (("name", FormValue.str "Ali".toList) : String × FormValue).1 ≠ "website" := by
  refine ⟨by decide, ?_⟩
  exact (handleFormSubmit_c10 ⟨.boolean false, some ["en"], true, "Mozilla"⟩ false true
    emptyState "fp" 0 [⟨"website", "http://spam", "text"⟩, ⟨"name", "Ali", "text"⟩] true "tok"
    [("name", FormValue.str "Ali".toList),
     ("_fingerprint", FormValue.str "fp".toList),
     ("_timestamp", FormValue.num 0),
     ("_csrf", FormValue.str "tok".toList)] (by decide)
    ("name", FormValue.str "Ali".toList) (by decide)).1

end AmriaSecurity

namespace AmriaSecurityEnhanced

/-! ### `js/security-enhanced.js` — configuration and state -/

/-- The `config.maxConsecutiveErrors` constant. -/
def maxConsecutiveErrors : Nat := 3
/-- The `config.lockoutDuration` constant (5 minutes, in ms). -/
def lockoutDuration : Int := 300000

/-- The module-level mutable variables `csrfToken`, `errorCount`,
`lockedUntil` (`null` modelled as `none`). -/
structure SessionState where
  csrfToken : Option String
  errorCount : Nat
  lockedUntil : Option Int
deriving DecidableEq, Repr

/-- The session-storage entries `accessToken` and `refreshToken`. -/
structure Storage where
  accessToken : Option String
  refreshToken : Option String
deriving DecidableEq, Repr

/-- A network request issued by the module (the CSRF-token fetch, the main
fetch with the headers it attaches, or the token-refresh fetch). -/
inductive NetCall
  | csrfFetch
  | mainFetch (url : String) (method : Option String) (csrf : Option String)
      (auth : Option String)
  | refreshFetch
deriving DecidableEq, Repr

/-- Outcome of `POST /auth/refresh` as seen by `refreshAuthToken`: a parsed
ok-response with the new token pair, a non-ok HTTP response, or a thrown
network/parse error. -/
inductive RefreshOutcome
  | ok (newAccess newRefresh : String)
  | httpFail
  | thrown
deriving DecidableEq, Repr

/-! ### `refreshAuthToken` (`js/security-enhanced.js` lines 414-440) -/

/-- The `refreshAuthToken()` call: the guard `if (!refreshToken) return
false` fires on any FALSY stored value — the entry being absent or the
empty string — and returns `false` immediately (before the try block, so
storage is untouched and no fetch is issued); otherwise perform the fetch:
on ok store the new pair and return `true`; on a non-ok response or a
thrown error clear both tokens and return `false`.  Also returns the
network calls issued. -/
def refreshAuthToken (store : Storage) (out : RefreshOutcome) :
    Bool × Storage × List NetCall :=
  match store.refreshToken with
  | none => (false, store, [])
  | some rt =>
    if rt = "" then (false, store, [])
    else
      match out with
      | .ok a r => (true, ⟨some a, some r⟩, [.refreshFetch])
      | .httpFail => (false, ⟨none, none⟩, [.refreshFetch])
      | .thrown => (false, ⟨none, none⟩, [.refreshFetch])

/-- Counterexample to claim C7 as stated: with an access token stored but
no refresh token, `refreshAuthToken` fails (returns `false`) yet the
`accessToken` entry is still present afterwards — the early return skips
the clearing code. -/
theorem refreshAuthToken_c7_counterexample :
    (refreshAuthToken ⟨some "a", none⟩ .thrown).1 = false ∧
    (refreshAuthToken ⟨some "a", none⟩ .thrown).2.1.accessToken = some "a" := by
  decide

/-- Amended C7: when a truthy (non-empty) refresh token is stored, every
failure (non-ok response or thrown error) returns `false` and clears both
entries, and success stores the new pair; but when the stored refresh
token is falsy — absent or the empty string — the function returns `false`
without issuing a fetch and without touching session storage at all. -/
theorem refreshAuthToken_c7 (store : Storage) (out : RefreshOutcome) :
    (store.refreshToken = none → refreshAuthToken store out = (false, store, [])) ∧
    (store.refreshToken = some "" → refreshAuthToken store out = (false, store, [])) ∧
    (∀ rt, store.refreshToken = some rt → rt ≠ "" →
      (out = .httpFail ∨ out = .thrown) →
      refreshAuthToken store out = (false, ⟨none, none⟩, [.refreshFetch])) ∧
    (∀ rt a r, store.refreshToken = some rt → rt ≠ "" → out = .ok a r →
      refreshAuthToken store out = (true, ⟨some a, some r⟩, [.refreshFetch])) := by
  refine ⟨fun h => ?_, fun h => ?_, fun rt h hrt hout => ?_, fun rt a r h hrt hout => ?_⟩
  · simp [refreshAuthToken, h]
  · simp [refreshAuthToken, h]
  · rcases hout with hout | hout <;> (subst hout; simp [refreshAuthToken, h, hrt])
  · subst hout; simp [refreshAuthToken, h, hrt]

/-- Witness for the amended C7 at concrete stores and outcomes, the stored
empty-string refresh token included. -/
theorem refreshAuthToken_c7_witness :
    refreshAuthToken ⟨none, none⟩ .thrown = (false, ⟨none, none⟩, []) ∧
    refreshAuthToken ⟨some "a", some ""⟩ .thrown = (false, ⟨some "a", some ""⟩, []) ∧
    refreshAuthToken ⟨some "a", some "r"⟩ .httpFail =
      (false, ⟨none, none⟩, [.refreshFetch]) ∧
    refreshAuthToken ⟨some "a", some "r"⟩ (.ok "na" "nr") =
      (true, ⟨some "na", some "nr"⟩, [.refreshFetch]) :=
  ⟨(refreshAuthToken_c7 ⟨none, none⟩ .thrown).1 rfl,
   (refreshAuthToken_c7 ⟨some "a", some ""⟩ .thrown).2.1 rfl,
   (refreshAuthToken_c7 ⟨some "a", some "r"⟩ .httpFail).2.2.1 "r" rfl (by decide)
     (Or.inl rfl),
   (refreshAuthToken_c7 ⟨some "a", some "r"⟩ (.ok "na" "nr")).2.2.2 "r" "na" "nr" rfl
     (by decide) rfl⟩

/-! ### Encryption primitives (`encrypt`/`decrypt`, lines 142-181)

The WebCrypto cipher, `TextEncoder`/`TextDecoder` and `btoa`/`atob` are
platform primitives, not repository code: they are abstracted by their
interface contracts over an abstract byte alphabet `β`.  The repository
glue — fresh 12-byte IV prepended to the ciphertext before base64, and the
fixed-size slice split on decryption — is what is verified. -/

/-- Contract of `TextEncoder`/`TextDecoder`: encoding then decoding is the identity. -/
structure TextCodec (β : Type) where
  encode : String → List β
  decode : List β → String
  decode_encode : ∀ s, decode (encode s) = s

/-- Contract of `btoa`/`atob`: encoding then decoding is the identity. -/
structure Base64 (β : Type) where
  btoa : List β → String
  atob : String → List β
  atob_btoa : ∀ bs, atob (btoa bs) = bs

/-- Contract of `crypto.subtle.encrypt/decrypt` for AES-GCM with the decryption
contract: decrypting with the same key and IV restores the data. -/
structure AESGCM (β : Type) where
  subtleEncrypt : List β → List β → List β → List β
  subtleDecrypt : List β → List β → List β → Option (List β)
  subtleDecrypt_subtleEncrypt :
    ∀ iv key d, subtleDecrypt iv key (subtleEncrypt iv key d) = some d

/-- The `encrypt(plaintext, key)` function with the freshly drawn 12-byte IV passed
explicitly: encode, encrypt, prepend the IV, base64. -/
def encrypt {β : Type} (C : AESGCM β) (T : TextCodec β) (B : Base64 β)
    (plaintext : String) (key iv : List β) : String :=
  let data := T.encode plaintext
  let ciphertext := C.subtleEncrypt iv key data
  let combined := iv ++ ciphertext
  B.btoa combined

/-- The `decrypt(encryptedBase64, key)` function: un-base64, slice off the 12-byte IV
prefix, decrypt, decode. -/
def decrypt {β : Type} (C : AESGCM β) (T : TextCodec β) (B : Base64 β)
    (encryptedBase64 : String) (key : List β) : Option String :=
  let combined := B.atob encryptedBase64
  let iv := combined.take 12
  let ciphertext := combined.drop 12
  (C.subtleDecrypt iv key ciphertext).map T.decode

/-- Claim C8: for every plaintext, key and fresh 12-byte IV,
`decrypt (encrypt plaintext key) key` returns the plaintext: the IV prefix
sliced off by `decrypt` is exactly the IV `encrypt` prepended. -/
theorem decrypt_encrypt_c8 {β : Type} (C : AESGCM β) (T : TextCodec β)
    (B : Base64 β) (plaintext : String) (key iv : List β)
    (hiv : iv.length = 12) :
    decrypt C T B (encrypt C T B plaintext key iv) key = some plaintext := by
  simp only [encrypt, decrypt, B.atob_btoa]
  rw [← hiv, List.take_left, List.drop_left, C.subtleDecrypt_subtleEncrypt]
  simp [T.decode_encode]

/-- Identity instances of the platform contracts over `β = Char`, for the
C8 witness. -/
def idCodec : TextCodec Char := ⟨fun s => s.toList, fun l => String.mk l, fun _ => rfl⟩

def idBase64 : Base64 Char := ⟨fun bs => String.mk bs, fun s => s.toList, fun _ => rfl⟩

def idAESGCM : AESGCM Char := ⟨fun _ _ d => d, fun _ _ c => some c, fun _ _ _ => rfl⟩

/-- Witness for C8 with a concrete plaintext, key and 12-byte IV. -/
theorem decrypt_encrypt_c8_witness :
    (List.replicate 12 'x').length = 12 ∧
    decrypt idAESGCM idCodec idBase64
      (encrypt idAESGCM idCodec idBase64 "hello" ['k'] (List.replicate 12 'x'))
      ['k'] = some "hello" :=
  ⟨by decide, decrypt_encrypt_c8 idAESGCM idCodec idBase64 "hello" ['k']
    (List.replicate 12 'x') (by decide)⟩

/-! ### `secureRequest` (`js/security-enhanced.js` lines 342-409)

Each invocation is modelled against one `Env`: the `Date.now()` timestamp
of the invocation (one timestamp per invocation), the outcome of the CSRF
prefetch if performed, the outcome of the main fetch, and the outcome of a
token refresh if performed.  The recursive 401 retry consumes the next
`Env`; `fuel` makes the recursion structural (`fuelOut` is the modelling
artifact for running out of envs/fuel, reachable only through an unbounded
401-refresh-retry chain). -/

/-- An HTTP response as consumed by `secureRequest`. -/
structure FetchResponse where
  ok : Bool
  status : Nat
  retryAfter : Option String
deriving DecidableEq, Repr

/-- Outcome of one `fetch`: a response, or a thrown network error. -/
inductive FetchResult
  | success (r : FetchResponse)
  | netError
deriving DecidableEq, Repr

/-- The `options` argument (only the method matters to the model). -/
structure RequestOptions where
  method : Option String
deriving DecidableEq, Repr

/-- The environment of one `secureRequest` invocation. -/
structure Env where
  now : Int
  csrfResponse : Option String
  mainFetch : FetchResult
  refresh : RefreshOutcome
deriving DecidableEq, Repr

/-- The errors `secureRequest` can throw. -/
inductive ErrKind
  | locked (remainingSeconds : Int)
  | rateLimited (retryAfter : Option String)
  | tooManyErrors
  | network
deriving DecidableEq, Repr

/-- What a `secureRequest` call produces for its caller. -/
inductive Outcome
  | response (r : FetchResponse)
  | thrown (e : ErrKind)
  | fuelOut
deriving DecidableEq, Repr

/-- JS `['POST','PUT','DELETE','PATCH'].includes(options.method?.toUpperCase())`. -/
def isMutatingMethod : Option String → Bool
  | some m => ["POST", "PUT", "DELETE", "PATCH"].contains m.toUpper
  | none => false

/-- The `if (!csrfToken && [...].includes(method)) await fetchCSRFToken()`
step: possibly fetches and caches a CSRF token (state update and the
network call issued). -/
def csrfStep (st : SessionState) (opts : RequestOptions) (env : Env) :
    SessionState × List NetCall :=
  if st.csrfToken.isNone && isMutatingMethod opts.method then
    ({ st with csrfToken := env.csrfResponse }, [.csrfFetch])
  else (st, [])

/-- The `if (response.ok) errorCount = 0` reset step. -/
def resetOnOk (st : SessionState) (r : FetchResponse) : SessionState :=
  if r.ok then { st with errorCount := 0 } else st

/-- The catch block of `secureRequest`: increment `errorCount`; at the
threshold set `lockedUntil = Date.now() + lockoutDuration` and throw
`tooManyErrors`, otherwise rethrow the caught error. -/
def catchBlock (st : SessionState) (now : Int) (e : ErrKind) :
    Outcome × SessionState :=
  let ec := st.errorCount + 1
  if maxConsecutiveErrors ≤ ec then
    (.thrown .tooManyErrors,
     { st with errorCount := ec, lockedUntil := some (now + lockoutDuration) })
  else
    (.thrown e, { st with errorCount := ec })

/-- The `secureRequest(url, options)` call: lockout gate, CSRF prefetch for mutating
methods, main fetch with CSRF/bearer headers, error-count reset on ok,
single-level 401 refresh-and-retry (a throw from the retry lands in this
call's catch block), 429 throw, and the catch block.  Returns the outcome,
the updated module state, the updated session storage, and the network
calls issued. -/
def secureRequest (url : String) (opts : RequestOptions) :
    Nat → SessionState → Storage → List Env →
    Outcome × SessionState × Storage × List NetCall
  | _, st, store, [] => (.fuelOut, st, store, [])
  | 0, st, store, _ :: _ => (.fuelOut, st, store, [])
  | fuel + 1, st, store, env :: envs =>
    -- if (lockedUntil && Date.now() < lockedUntil) throw
    match st.lockedUntil.bind (fun l => if env.now < l then some l else none) with
    | some l =>
      (.thrown (.locked ((l - env.now + 999) / 1000)), st, store, [])
    | none =>
      let s1 := csrfStep st opts env
      let mainCall := NetCall.mainFetch url opts.method s1.1.csrfToken store.accessToken
      match env.mainFetch with
      | .netError =>
        let c := catchBlock s1.1 env.now ErrKind.network
        (c.1, c.2, store, s1.2 ++ [mainCall])
      | .success r =>
        let st2 := resetOnOk s1.1 r
        if r.status = 401 then
          let rr := refreshAuthToken store env.refresh
          if rr.1 then
            match secureRequest url opts fuel st2 rr.2.1 envs with
            | (.thrown e, st3, store3, calls3) =>
              let c := catchBlock st3 env.now e
              (c.1, c.2, store3, s1.2 ++ [mainCall] ++ rr.2.2 ++ calls3)
            | (out, st3, store3, calls3) =>
              (out, st3, store3, s1.2 ++ [mainCall] ++ rr.2.2 ++ calls3)
          else
            (.response r, st2, rr.2.1, s1.2 ++ [mainCall] ++ rr.2.2)
        else if r.status = 429 then
          let c := catchBlock st2 env.now (ErrKind.rateLimited r.retryAfter)
          (c.1, c.2, store, s1.2 ++ [mainCall])
        else
          (.response r, st2, store, s1.2 ++ [mainCall])

theorem catchBlock_fst (st : SessionState) (now : Int) (e : ErrKind) :
    (catchBlock st now e).1 = .thrown .tooManyErrors ∨
    (catchBlock st now e).1 = .thrown e := by
  simp only [catchBlock]
  split_ifs <;> simp

theorem csrfStep_lockedUntil (st : SessionState) (opts : RequestOptions) (env : Env) :
    ((csrfStep st opts env).1).lockedUntil = st.lockedUntil := by
  simp only [csrfStep]
  split_ifs <;> rfl

theorem resetOnOk_lockedUntil (st : SessionState) (r : FetchResponse) :
    (resetOnOk st r).lockedUntil = st.lockedUntil := by
  simp only [resetOnOk]
  split_ifs <;> rfl

/-- No invocation of `secureRequest` whose environments all lie at or past
the state's lockout timestamp produces the lockout-gate error. -/
theorem secureRequest_no_locked (url : String) (opts : RequestOptions) :
    ∀ (fuel : Nat) (st : SessionState) (store : Storage) (envs : List Env),
      (∀ l, st.lockedUntil = some l → ∀ e ∈ envs, l ≤ e.now) →
      ∀ s, (secureRequest url opts fuel st store envs).1 ≠
        Outcome.thrown (ErrKind.locked s) := by
  intro fuel
  induction fuel with
  | zero =>
    intro st store envs _ s
    cases envs <;> simp [secureRequest]
  | succ n ih =>
    intro st store envs hinv s
    cases envs with
    | nil => simp [secureRequest]
    | cons env rest =>
      have hgate : st.lockedUntil.bind
          (fun l => if env.now < l then some l else none) = none := by
        cases hlu : st.lockedUntil with
        | none => rfl
        | some l =>
          have := hinv l hlu env (by simp)
          simp only [Option.bind]
          rw [if_neg (by omega)]
      simp only [secureRequest, hgate]
      cases hmf : env.mainFetch with
      | netError =>
        dsimp only
        rcases catchBlock_fst ((csrfStep st opts env).1) env.now .network with h | h <;>
          simp [h]
      | success r =>
        dsimp only
        have hinv2 : ∀ l,
            (resetOnOk (csrfStep st opts env).1 r).lockedUntil = some l →
            ∀ e ∈ rest, l ≤ e.now := by
          intro l hl e he
          rw [resetOnOk_lockedUntil, csrfStep_lockedUntil] at hl
          exact hinv l hl e (List.mem_cons_of_mem _ he)
        have hih := ih (resetOnOk (csrfStep st opts env).1 r)
          (refreshAuthToken store env.refresh).2.1 rest hinv2 s
        split_ifs with h401 hrr
        · split
          · rename_i e st3 store3 calls3 heq
            rw [heq] at hih
            rcases catchBlock_fst st3 env.now e with h | h <;> rw [h]
            · simp
            · exact hih
          · rename_i out st3 store3 calls3 heq
            rw [heq] at hih
            exact hih
        · simp
        · rcases catchBlock_fst (resetOnOk (csrfStep st opts env).1 r) env.now
              (.rateLimited r.retryAfter) with h | h <;> simp [h]
        · simp

/-- Claim C5: once the lockout timestamp is set, every `secureRequest`
call made before the timestamp throws the locked error (with the remaining
seconds) immediately — module state and session storage unchanged and no
network request issued — for every path and options argument; a call at or
after the timestamp is not rejected by the lockout gate (times
non-decreasing across the optional 401-retry chain); and whenever the
consecutive-error count reaches the threshold, the catch block sets the
lockout timestamp and throws the too-many-errors error. -/
theorem secureRequest_c5_lockout
    (url : String) (opts : RequestOptions) (st : SessionState) (store : Storage)
    (env : Env) (envs : List Env) (fuel : Nat) (l : Int)
    (hl : st.lockedUntil = some l) :
    (env.now < l →
      secureRequest url opts (fuel + 1) st store (env :: envs) =
        (.thrown (.locked ((l - env.now + 999) / 1000)), st, store, [])) ∧
    (l ≤ env.now → (∀ e ∈ envs, l ≤ e.now) →
      ∀ s, (secureRequest url opts (fuel + 1) st store (env :: envs)).1 ≠
        .thrown (.locked s)) ∧
    (∀ (stc : SessionState) (now : Int) (e : ErrKind),
      maxConsecutiveErrors ≤ stc.errorCount + 1 →
      catchBlock stc now e =
        (.thrown .tooManyErrors,
         { stc with errorCount := stc.errorCount + 1,
                    lockedUntil := some (now + lockoutDuration) })) := by
  refine ⟨?_, ?_, ?_⟩
  · intro hnow
    simp only [secureRequest, hl, Option.bind]
    rw [if_pos hnow]
  · intro hnow hrest s
    apply secureRequest_no_locked
    intro l2 hl2 e he
    rw [hl] at hl2
    injection hl2 with hl2
    subst hl2
    rcases List.mem_cons.mp he with he | he
    · subst he; exact hnow
    · exact hrest e he
  · intro stc now e hth
    simp only [catchBlock]
    rw [if_pos hth]

/-- Witness for C5: a locked state (`lockedUntil = 1000`); a call at
`now = 500` throws the locked error with 1 second remaining and issues no
request; a call at `now = 1000` passes the gate; the catch block at the
threshold sets the lockout. -/
theorem secureRequest_c5_lockout_witness :
    secureRequest "/contact" ⟨some "POST"⟩ 1 ⟨none, 3, some 1000⟩ ⟨none, none⟩
        [⟨500, none, .netError, .thrown⟩] =
      (.thrown (.locked 1), ⟨none, 3, some 1000⟩, ⟨none, none⟩, []) ∧
    ((secureRequest "/contact" ⟨some "POST"⟩ 1 ⟨none, 3, some 1000⟩ ⟨none, none⟩
        [⟨1000, none, .netError, .thrown⟩]).1 ≠ .thrown (.locked 7)) ∧
    catchBlock ⟨none, 2, none⟩ 1000 .network =
      (.thrown .tooManyErrors, ⟨none, 3, some 301000⟩) := by
  refine ⟨?_, ?_, ?_⟩
  · exact (secureRequest_c5_lockout "/contact" ⟨some "POST"⟩ ⟨none, 3, some 1000⟩
      ⟨none, none⟩ ⟨500, none, .netError, .thrown⟩ [] 0 1000 rfl).1 (by decide)
  · exact (secureRequest_c5_lockout "/contact" ⟨some "POST"⟩ ⟨none, 3, some 1000⟩
      ⟨none, none⟩ ⟨1000, none, .netError, .thrown⟩ [] 0 1000 rfl).2.1 (by decide)
      (by simp) 7
  · exact (secureRequest_c5_lockout "/contact" ⟨some "POST"⟩ ⟨none, 3, some 1000⟩
      ⟨none, none⟩ ⟨1000, none, .netError, .thrown⟩ [] 0 1000 rfl).2.2
      ⟨none, 2, none⟩ 1000 .network (by decide)

end AmriaSecurityEnhanced
